import Mathlib

/-!
Shallow embedding of `encfs/CipherFileIO.cpp`, the cipher-block filter of the
EncFS encrypted-filesystem overlay, together with proofs about its per-file IV
header lifecycle, CBC padding codec, block/stream cipher selection, size
translation and error handling.

External collaborators (the raw backing file `base`, the cipher primitive and
the block chunker `BlockFileIO`) are modelled as oracle records (`Env`,
`Cipher`): each collaborator call is an uninterpreted function of its
arguments, so every theorem quantifies over all collaborator behaviours.
Buffers are `List Nat` with byte values below 256; machine 64-bit values are
`Nat` with explicit truncation where the source code can overflow.
-/

namespace EncFS

/-- errno values (Linux); the source returns negated errno codes. -/
def EBADMSG : Int := 74

/-- errno for an operation not permitted. -/
def EPERM : Int := 1

/-- errno for "is a directory". -/
def EISDIR : Int := 21

/-- the `O_RDWR` open flag bit. -/
def O_RDWR : Nat := 2

/-- `const int HEADER_SIZE = 8;  // 64 bit initialization vector` -/
def HEADER_SIZE : Nat := 8

/-- Big-endian accumulation `fileIV = (fileIV << 8) | (uint64_t)buf[i]`
over a byte buffer, as done by `initHeader` and `generateReverseHeader`. -/
def beBytesToU64 (buf : List Nat) : Nat :=
  buf.foldl (fun acc b => (acc <<< 8) ||| b) 0

/-- Big-endian serialization `buf[7-i] = fileIV & 0xff; fileIV >>= 8` of a
64-bit value, as done by `writeHeader`. -/
def u64BEBytes (v : Nat) : List Nat :=
  (List.range 8).map (fun i => (v >>> (8 * (7 - i))) % 256)

/-- Little-endian serialization of the inode number
(`inoBuf[i] = ino & 0xff; ino >>= 8`, over `sizeof(ino_t)` bytes). -/
def leBytes (v n : Nat) : List Nat :=
  (List.range n).map (fun i => (v >>> (8 * i)) % 256)

/-- A zero-initialized C stack buffer of `n` bytes after being filled from a
source `l`: the first `min n l.length` bytes come from `l`, the rest stay 0. -/
def bufFix (n : Nat) (l : List Nat) : List Nat :=
  l.take n ++ List.replicate (n - l.length) 0

/-- Backward scan of the padded-decode loop:
`while (padBytes < readSize && data[readSize - padBytes - 1] == 0x00) padBytes++`.
`countTrailingZeros data k` is the number of consecutive `0x00` bytes at the
end of the first `k` bytes of `data`. -/
def countTrailingZeros (data : List Nat) : Nat → Nat
  | 0 => 0
  | k + 1 => if data.getD k 0 = 0 then countTrailingZeros data k + 1 else 0

/-- Spec-side trailing-zero count: length of the maximal all-zero suffix. -/
def trailingZeroCount (l : List Nat) : Nat :=
  (l.reverse.takeWhile (fun b => b == 0)).length

/-- Oracle record for the cipher primitive (`SSL_Cipher`). Each transform maps
a buffer and a 64-bit numeric IV to `some` transformed buffer, or `none` on
failure. `sha1` is the 20-byte hash used for reverse-mode header synthesis. -/
structure Cipher where
  cipherBlockSize : Nat
  streamEncode : List Nat → Nat → Option (List Nat)
  streamDecode : List Nat → Nat → Option (List Nat)
  blockEncode : List Nat → Nat → Option (List Nat)
  blockDecode : List Nat → Nat → Option (List Nat)
  sha1 : List Nat → List Nat

/-- The real cipher transforms work in place, hence preserve buffer length;
theorems that need this take it as a hypothesis on the oracle. -/
def Cipher.BlockDecodeLen (c : Cipher) : Prop :=
  ∀ b iv o, c.blockDecode b iv = some o → o.length = b.length

/-- In-memory state of one `CipherFileIO` instance (the `FileFilter` of the
spec), together with the `_allowHoles` flag inherited from `BlockFileIO`. -/
structure FState where
  haveHeader : Bool
  reverse : Bool
  haveCBCPadding : Bool
  allowHoles : Bool
  externalIV : Nat
  fileIV : Nat
  lastFlags : Nat
  blockSize : Nat
deriving Repr, DecidableEq

/-- Result of `stat()` on the backing file, restricted to the fields the
source consults. -/
structure Stat where
  isReg : Bool
  size : Nat
  ino : Nat
deriving Repr, DecidableEq

/-- Oracle record for the backing `FileIO` object and the block chunker.
`baseRead`/`rangeRead` return the result code and the bytes placed in the
caller's buffer; `randomize k` is the result of the `k`-th `randomize` call. -/
structure Env where
  rawSize : Nat
  baseRead : Nat → Nat → Int × List Nat
  writeAt : Nat → List Nat → Int
  randomize : Nat → Option (List Nat)
  writable : Bool
  openRes : Nat → Int
  baseSetIV : Nat → Bool
  truncateBaseFull : Nat → Int
  chunkerTruncate : Nat → Int
  baseTruncate : Nat → Int
  rangeRead : Nat → Nat → Int × List Nat
  getAttrRes : Int
  stat : Stat

/-- Observable side effects on the backing store and cipher, used to state
that an operation performed (or did not perform) a write or a transform. -/
inductive Eff where
  | baseOpen (flags : Nat)
  | baseWrite (off : Nat) (bytes : List Nat)
  | blockCipherOp (iv : Nat) (len : Nat)
  | streamCipherOp (iv : Nat) (len : Nat)
deriving Repr, DecidableEq

/-- Outcome of an `int`-returning member function: the returned code, the
instance state on return and the effect trace. `assertFail` is a fired
`rAssert` (an exception in the source), `noFuel` means the modelled retry
loop ran out of fuel. -/
inductive HRes where
  | ret (res : Int) (s : FState) (tr : List Eff)
  | assertFail (s : FState) (tr : List Eff)
  | noFuel
deriving Repr, DecidableEq

/-- Outcome of a `bool`-returning member function. -/
inductive BRes where
  | ret (ok : Bool) (s : FState) (tr : List Eff)
  | assertFail (s : FState) (tr : List Eff)
  | noFuel
deriving Repr, DecidableEq

/-- Outcome of a `ssize_t`-returning data operation: result code, contents of
the caller-visible buffer, state, trace. -/
inductive RRes where
  | ret (res : Int) (buf : List Nat) (s : FState) (tr : List Eff)
  | assertFail (s : FState) (tr : List Eff)
  | noFuel
deriving Repr, DecidableEq

/-- The returned code of an `HRes`, when the call returned at all. -/
def HRes.retCode : HRes → Option Int
  | .ret r _ _ => some r
  | _ => none

/-- Whether an `HRes` is a fired `rAssert`. -/
def HRes.isAssertFail : HRes → Bool
  | .assertFail _ _ => true
  | _ => false

/-- The effect trace of an `HRes` return. -/
def HRes.trace : HRes → Option (List Eff)
  | .ret _ _ tr => some tr
  | _ => none

/-- The result code of an `RRes` return. -/
def RRes.count : RRes → Option Int
  | .ret r _ _ _ => some r
  | _ => none

/-- The effect trace of an `RRes` return. -/
def RRes.trace : RRes → Option (List Eff)
  | .ret _ _ _ tr => some tr
  | _ => none

/-- Result of the size arithmetic: the translated size, or a fired `rAssert`
(backing size smaller than the minimum for the enabled features). -/
inductive GRes where
  | ok (n : Nat)
  | assertFail
deriving Repr, DecidableEq

/-- Sequencing of size-arithmetic steps. -/
def GRes.bind : GRes → (Nat → GRes) → GRes
  | .ok n, f => f n
  | .assertFail, _ => .assertFail

/-- Outcome of `getAttr`: backing result code and the (possibly adjusted)
stat buffer. -/
inductive ARes where
  | ok (res : Int) (st : Stat)
  | assertFail
deriving Repr, DecidableEq

/-- Outcome of `generateReverseHeader`: the encrypted header bytes, or the
error code, each with the instance state. -/
inductive GRHRes where
  | ok (hdr : List Nat) (s : FState)
  | err (e : Int) (s : FState)
  | assertFail
deriving Repr, DecidableEq

/-- `checkCBCPadding(cfg)`: 2 when padding in reverse mode, 1 when padding in
normal mode, 0 when not padding, decided by the cipher interface version. -/
def checkCBCPadding (current revision : Nat) (reverseEncryption : Bool) : Nat :=
  if (current = 3 ∧ 1 ≤ revision) ∨ 3 < current then
    if reverseEncryption then 2 else 1
  else 0

/-- The constructor's block size argument:
`cfg->config->blockSize - checkCBCPadding(cfg) % 2` (one byte is lost to the
padding marker in normal padded mode only). -/
def ctorBlockSize (configuredBlockSize current revision : Nat)
    (reverseEncryption : Bool) : Nat :=
  configuredBlockSize - checkCBCPadding current revision reverseEncryption % 2

/-- Result of the header-creation retry loop. -/
inductive RandRes where
  | ok (buf : List Nat) (iv : Nat)
  | fail
  | noFuel
deriving Repr, DecidableEq

/-- The `initHeader` creation loop
`do { randomize(buf, 8); fileIV = BE(buf); } while (fileIV == 0)`:
`k` counts the `randomize` calls issued so far, `fuel` bounds the retries. -/
def randLoop (env : Env) (k : Nat) : Nat → RandRes
  | 0 => .noFuel
  | fuel + 1 =>
    match env.randomize k with
    | none => .fail
    | some buf =>
      let iv := beBytesToU64 (bufFix 8 buf)
      if iv = 0 then randLoop env (k + 1) fuel else .ok (bufFix 8 buf) iv

/-- `CipherFileIO::initHeader`: read and decrypt an existing 8-byte header
when the backing file has one (raw size at least 8), otherwise create a fresh
random one and persist it when the backing file is writable. -/
def initHeader (s : FState) (c : Cipher) (env : Env) (fuel : Nat) : HRes :=
  if HEADER_SIZE ≤ env.rawSize then
    let rd := env.baseRead 0 8
    if rd.1 < 0 then .ret rd.1 s []
    else
      match c.streamDecode (bufFix 8 rd.2) s.externalIV with
      | none => .ret (-EBADMSG) s []
      | some dec =>
        let iv := beBytesToU64 dec
        if iv = 0 then .assertFail { s with fileIV := iv } []
        else .ret 0 { s with fileIV := iv } []
  else
    match randLoop env 0 fuel with
    | .noFuel => .noFuel
    | .fail => .ret (-EBADMSG) s []
    | .ok buf iv =>
      let s1 := { s with fileIV := iv }
      if env.writable then
        match c.streamEncode buf s1.externalIV with
        | none => .ret (-EBADMSG) s1 []
        | some enc =>
          let w := env.writeAt 0 enc
          if w < 0 then .ret w s1 [.baseWrite 0 enc]
          else .ret 0 s1 [.baseWrite 0 enc]
      else .ret 0 s1 []

/-- `CipherFileIO::writeHeader`. The serialization loop
`buf[7-i] = fileIV & 0xff; fileIV >>= 8` runs on the member itself, so on
return the member holds `fileIV >> 64` (0 for a 64-bit value). -/
def writeHeader (s : FState) (c : Cipher) (env : Env) : Bool × FState × List Eff :=
  let buf := u64BEBytes s.fileIV
  let s1 := { s with fileIV := s.fileIV >>> 64 }
  match c.streamEncode buf s1.externalIV with
  | none => (false, s1, [])
  | some enc => (decide (0 ≤ env.writeAt 0 enc), s1, [.baseWrite 0 enc])

/-- `CipherFileIO::setIV`. A first call just records the external IV; later
calls on a header-bearing file re-open the backing file read-write, establish
the header if needed and rewrite it under the new external IV.  A successful
`O_RDWR` re-open makes the base writable, hence `initHeader` runs with
`writable := true`. -/
def setIV (s : FState) (c : Cipher) (env : Env) (iv : Nat) (fuel : Nat) : BRes :=
  if s.externalIV = 0 then
    .ret (env.baseSetIV iv) { s with externalIV := iv } []
  else if s.haveHeader then
    let newFlags := s.lastFlags ||| O_RDWR
    let res := env.openRes newFlags
    if res < 0 then
      if res = -EISDIR then
        .ret (env.baseSetIV iv) { s with externalIV := iv } [.baseOpen newFlags]
      else .ret false s [.baseOpen newFlags]
    else
      let step : HRes :=
        if s.fileIV = 0 then initHeader s c { env with writable := true } fuel
        else .ret 0 s []
      match step with
      | .noFuel => .noFuel
      | .assertFail s1 tr => .assertFail s1 (.baseOpen newFlags :: tr)
      | .ret r s1 tr =>
        if r < 0 then .ret false s1 (.baseOpen newFlags :: tr)
        else
          let oldIV := s1.externalIV
          let s2 := { s1 with externalIV := iv }
          let wh := writeHeader s2 c env
          if wh.1 then .ret (env.baseSetIV iv) wh.2.1 (.baseOpen newFlags :: (tr ++ wh.2.2))
          else .ret false { wh.2.1 with externalIV := oldIV } (.baseOpen newFlags :: (tr ++ wh.2.2))
  else .ret (env.baseSetIV iv) s []

/-- The size arithmetic shared verbatim by `getAttr` and `getSize` (the two
are line-for-line identical in the source): in normal mode header subtraction
then padding shrinkage, in reverse mode padding growth then header addition.
A failed `rAssert` surfaces as `.assertFail`. -/
def adjustSize (s : FState) (cbs : Nat) (size : Nat) : GRes :=
  if !s.reverse then
    let step1 : GRes :=
      if s.haveHeader ∧ 0 < size then
        if HEADER_SIZE ≤ size then .ok (size - HEADER_SIZE) else .assertFail
      else .ok size
    match step1 with
    | .assertFail => .assertFail
    | .ok size1 =>
      if s.haveCBCPadding ∧ 0 < size1 then
        if cbs ≤ size1 then .ok (size1 - cbs - (size1 - cbs) / (s.blockSize + 1))
        else .assertFail
      else .ok size1
  else
    if 0 < size then
      let size1 :=
        if s.haveCBCPadding then size + (size - 1) / (s.blockSize - 1) + cbs
        else size
      .ok (if s.haveHeader then size1 + HEADER_SIZE else size1)
    else .ok size

/-- `CipherFileIO::getSize`: translate the backing store's raw size. -/
def getSize (s : FState) (cbs : Nat) (env : Env) : GRes :=
  adjustSize s cbs env.rawSize

/-- `CipherFileIO::getAttr`: stat the backing file and adjust `st_size` only
for regular files. -/
def getAttr (s : FState) (cbs : Nat) (env : Env) : ARes :=
  if env.getAttrRes = 0 ∧ env.stat.isReg then
    match adjustSize s cbs env.stat.size with
    | .assertFail => .assertFail
    | .ok n => .ok env.getAttrRes { env.stat with size := n }
  else .ok env.getAttrRes env.stat

/-- The composition steps named by the spec (4.2/4.4), stated separately so
the order in which `adjustSize` applies them is a theorem, not a definition:
header subtraction (asserting the size is at least 8). -/
def headerShrink (size : Nat) : GRes :=
  if HEADER_SIZE ≤ size then .ok (size - HEADER_SIZE) else .assertFail

/-- Padding shrinkage `size -= cbs; size -= size / (blockSize + 1)`
(asserting the size is at least one cipher block). -/
def paddingShrink (bs cbs size : Nat) : GRes :=
  if cbs ≤ size then .ok (size - cbs - (size - cbs) / (bs + 1)) else .assertFail

/-- Padding growth `size += (size - 1) / (blockSize - 1); size += cbs`. -/
def paddingGrow (bs cbs size : Nat) : Nat :=
  size + (size - 1) / (bs - 1) + cbs

/-- A padded normal-mount instance over configured block size `C`: the
constructor gives it effective block size `C - 1`
(`checkCBCPadding` returns 1). Headers play no role in the size codec. -/
def normalPadInstance (C : Nat) : FState :=
  { haveHeader := false, reverse := false, haveCBCPadding := true,
    allowHoles := false, externalIV := 0, fileIV := 0, lastFlags := 0,
    blockSize := ctorBlockSize C 3 1 false }

/-- A padded reverse-mount instance over configured block size `C`: the
constructor gives it effective block size `C` (`checkCBCPadding` returns 2). -/
def reversePadInstance (C : Nat) : FState :=
  { haveHeader := false, reverse := true, haveCBCPadding := true,
    allowHoles := false, externalIV := 0, fileIV := 0, lastFlags := 0,
    blockSize := ctorBlockSize C 3 1 true }

/-- Ciphertext-to-plaintext size map: the padding branch that `getSize` /
`adjustSize` run on a padded normal mount. -/
def ciphertextToPlaintextSize (C cbs m : Nat) : GRes :=
  adjustSize (normalPadInstance C) cbs m

/-- Plaintext-to-ciphertext size map: the padding branch that `getSize` /
`adjustSize` run on a padded reverse mount. -/
def plaintextToCiphertextSize (C cbs n : Nat) : GRes :=
  adjustSize (reversePadInstance C) cbs n

/-- A block-addressed I/O request: byte offset, requested length and the
bytes in the caller's buffer (relevant for writes). -/
structure IORequest where
  offset : Nat
  dataLen : Nat
  data : List Nat
deriving Repr, DecidableEq

/-- `CipherFileIO::blockRead`: decode for presentation in block mode. In
reverse mode the sense flips to encoding; in normal mode an all-zero buffer
is left alone when sparse-hole support is on. -/
def blockRead (s : FState) (c : Cipher) (buf : List Nat) (iv : Nat) :
    Option (List Nat) :=
  if s.reverse then c.blockEncode buf iv
  else if s.allowHoles ∧ buf.all (fun b => b == 0) then some buf
  else c.blockDecode buf iv

/-- `CipherFileIO::streamRead`: decode for presentation in stream mode. -/
def streamRead (s : FState) (c : Cipher) (buf : List Nat) (iv : Nat) :
    Option (List Nat) :=
  if s.reverse then c.streamEncode buf iv else c.streamDecode buf iv

/-- `CipherFileIO::blockWrite`: encode for storage in block mode. -/
def blockWrite (s : FState) (c : Cipher) (buf : List Nat) (iv : Nat) :
    Option (List Nat) :=
  if s.reverse then c.blockDecode buf iv else c.blockEncode buf iv

/-- `CipherFileIO::streamWrite`: encode for storage in stream mode. -/
def streamWrite (s : FState) (c : Cipher) (buf : List Nat) (iv : Nat) :
    Option (List Nat) :=
  if s.reverse then c.streamDecode buf iv else c.streamEncode buf iv

/-- The request-offset adjustment at the top of `readOneBlock`: padding
expansion (`offset += offset / dataLen`) then header shift (`offset += 8`),
each only in normal mode. -/
def readAdjOff (s : FState) (req : IORequest) : Nat :=
  let o :=
    if s.haveCBCPadding ∧ !s.reverse then req.offset + req.offset / req.dataLen
    else req.offset
  if s.haveHeader ∧ !s.reverse then o + HEADER_SIZE else o

/-- The request-length adjustment at the top of `readOneBlock`: one extra
byte per block when padding in normal mode. -/
def readAdjLen (s : FState) (req : IORequest) : Nat :=
  if s.haveCBCPadding ∧ !s.reverse then req.dataLen + 1 else req.dataLen

/-- `CipherFileIO::readOneBlock`: read raw bytes from the backing file at the
adjusted offset, lazily establish the header, then decode. With CBC padding
in normal mode: strip to a multiple of the cipher block size, block-decode,
backward-scan the `0x00` padding, handle the all-zero hole case, and demand
the `0x80` marker, else `-EBADMSG`. Without padding: stream mode for a
partial block, block mode for a full one. -/
def readOneBlock (s : FState) (c : Cipher) (env : Env) (req : IORequest)
    (fuel : Nat) : RRes :=
  let cbs := c.cipherBlockSize
  let bs := s.blockSize
  let blockNum := req.offset / bs
  let rd := env.baseRead (readAdjOff s req) (readAdjLen s req)
  let readRes := rd.1
  let data := rd.2
  let step : HRes :=
    if s.haveHeader ∧ s.fileIV = 0 ∧ 0 < readRes then initHeader s c env fuel
    else .ret 0 s []
  match step with
  | .noFuel => .noFuel
  | .assertFail s1 tr => .assertFail s1 tr
  | .ret r s1 tr =>
    if r < 0 then .ret r data s1 tr
    else if s.haveCBCPadding ∧ 0 ≤ readRes then
      if !s.reverse then
        let rs0 := readRes.toNat
        let m := rs0 - rs0 % cbs
        if 0 < m then
          let iv := blockNum ^^^ s1.fileIV
          let tr1 := tr ++ [Eff.blockCipherOp iv m]
          match blockRead s c (data.take m) iv with
          | none => .ret (-EBADMSG) data s1 tr1
          | some dec =>
            let pb := countTrailingZeros dec m
            if s.allowHoles ∧ pb = m ∧ m = bs + 1 then
              .ret ((m - 1 : Nat) : Int) dec s1 tr1
            else if 1 < m - pb ∧ dec.getD (m - pb - 1) 0 = 0x80 then
              .ret ((m - (pb + 1) : Nat) : Int) dec s1 tr1
            else .ret (-EBADMSG) dec s1 tr1
        else .ret 0 data s1 tr
      else
        -- reverse-direction padded decode is `// todo` in the source:
        -- it falls through and returns the raw read size unchanged
        .ret readRes data s1 tr
    else if 0 < readRes then
      let rs0 := readRes.toNat
      let iv := blockNum ^^^ s1.fileIV
      if rs0 ≠ bs then
        match streamRead s c (data.take rs0) iv with
        | none => .ret (-EBADMSG) data s1 (tr ++ [Eff.streamCipherOp iv rs0])
        | some dec => .ret readRes dec s1 (tr ++ [Eff.streamCipherOp iv rs0])
      else
        match blockRead s c (data.take rs0) iv with
        | none => .ret (-EBADMSG) data s1 (tr ++ [Eff.blockCipherOp iv rs0])
        | some dec => .ret readRes dec s1 (tr ++ [Eff.blockCipherOp iv rs0])
    else .ret readRes data s1 tr

/-- Spec-side description (4.2) of the padded per-block decode: strip the raw
count down to a multiple of the cipher native block size, decode, count the
all-zero suffix, special-case the all-zero extended block (hole), demand one
`0x80` marker and truncate there, else BadMessage. Returns result code and
decoded buffer. -/
def specPaddedDecode (s : FState) (c : Cipher) (rawCount : Nat)
    (raw : List Nat) (iv : Nat) : Int × List Nat :=
  let m := rawCount - rawCount % c.cipherBlockSize
  if m = 0 then (0, raw)
  else
    match blockRead s c (raw.take m) iv with
    | none => (-EBADMSG, raw)
    | some dec =>
      let t := trailingZeroCount dec
      if s.allowHoles ∧ t = m ∧ m = s.blockSize + 1 then (((m - 1 : Nat) : Int), dec)
      else if 1 < m - t ∧ dec.getD (m - t - 1) 0 = 0x80 then
        (((m - t - 1 : Nat) : Int), dec)
      else (-EBADMSG, dec)

/-- `CipherFileIO::writeOneBlock`: refuse header-bearing writes in reverse
mode, lazily establish the header, encode (stream mode for a partial block,
block mode for a full one), then write at the header-shifted offset. -/
def writeOneBlock (s : FState) (c : Cipher) (env : Env) (req : IORequest)
    (fuel : Nat) : HRes :=
  if s.haveHeader ∧ s.reverse then .ret (-EPERM) s []
  else
    let bs := s.blockSize
    let blockNum := req.offset / bs
    let step : HRes :=
      if s.haveHeader ∧ s.fileIV = 0 then initHeader s c env fuel
      else .ret 0 s []
    match step with
    | .noFuel => .noFuel
    | .assertFail s1 tr => .assertFail s1 tr
    | .ret r s1 tr =>
      if r < 0 then .ret r s1 tr
      else
        let iv := blockNum ^^^ s1.fileIV
        if req.dataLen ≠ bs then
          match streamWrite s c (req.data.take req.dataLen) iv with
          | none => .ret (-EBADMSG) s1 (tr ++ [Eff.streamCipherOp iv req.dataLen])
          | some enc =>
            let wOff := if s.haveHeader then req.offset + HEADER_SIZE else req.offset
            .ret (env.writeAt wOff enc) s1
              (tr ++ [Eff.streamCipherOp iv req.dataLen, Eff.baseWrite wOff enc])
        else
          match blockWrite s c (req.data.take req.dataLen) iv with
          | none => .ret (-EBADMSG) s1 (tr ++ [Eff.blockCipherOp iv req.dataLen])
          | some enc =>
            let wOff := if s.haveHeader then req.offset + HEADER_SIZE else req.offset
            .ret (env.writeAt wOff enc) s1
              (tr ++ [Eff.blockCipherOp iv req.dataLen, Eff.baseWrite wOff enc])

/-- `CipherFileIO::generateReverseHeader`: derive the per-file IV from the
SHA1 hash of the backing file's inode number and encrypt it under the
external IV to produce the externally visible header bytes. -/
def generateReverseHeader (s : FState) (c : Cipher) (env : Env) : GRHRes :=
  match getAttr s c.cipherBlockSize env with
  | .assertFail => .assertFail
  | .ok res st =>
    if res ≠ 0 then .assertFail
    else if st.ino = 0 then .assertFail
    else
      let inoBuf := leBytes st.ino 8
      let headerBuf := bufFix HEADER_SIZE (c.sha1 inoBuf)
      let s1 := { s with fileIV := beBytesToU64 headerBuf }
      match c.streamEncode headerBuf s1.externalIV with
      | none => .err (-EBADMSG) s1
      | some enc => .ok enc s1

/-- `CipherFileIO::read`: anything but reverse-mode-with-header delegates to
the chunker's range read. Reverse mode with headers synthesizes the header on
every call, maps ciphertext offset `X` to backing offset `X - 8`, serves the
virtual header bytes for negative mapped offsets and reads the remainder from
backing offset 0. -/
def read (s : FState) (c : Cipher) (env : Env) (req : IORequest) : RRes :=
  if !(s.reverse ∧ s.haveHeader) then
    let rr := env.rangeRead req.offset req.dataLen
    .ret rr.1 rr.2 s []
  else
    match generateReverseHeader s c env with
    | .assertFail => .assertFail s []
    | .err e s1 => .ret e [] s1 []
    | .ok hdr s1 =>
      let mapped : Int := (req.offset : Int) - (HEADER_SIZE : Int)
      if mapped < 0 then
        let headerBytes := min (-mapped).toNat req.dataLen
        let headerOffset := HEADER_SIZE - headerBytes
        let part := (hdr.drop headerOffset).take headerBytes
        if headerBytes = req.dataLen then .ret (headerBytes : Int) part s1 []
        else if mapped + (headerBytes : Int) ≠ 0 then .assertFail s1 []
        else
          let rr := env.rangeRead 0 (req.dataLen - headerBytes)
          if rr.1 < 0 then .ret rr.1 (part ++ rr.2) s1 []
          else .ret ((headerBytes : Int) + rr.1) (part ++ rr.2) s1 []
      else
        let rr := env.rangeRead mapped.toNat req.dataLen
        .ret rr.1 rr.2 s1 []

/-- `CipherFileIO::truncate`: temporarily re-open read-write when needed
(restoring the original flags before returning), then either delegate
wholesale to the chunker (no header) or establish the header, logically
truncate through the chunker and truncate the backing file to `size + 8`.
Note the restore step's `if (res < 0) res = reopen;`: a failure of the main
sequence is replaced by the restoring open's result. -/
def truncate (s : FState) (c : Cipher) (env : Env) (size : Nat) (fuel : Nat) :
    HRes :=
  let needReopen := !env.writable
  if needReopen ∧ env.openRes (s.lastFlags ||| O_RDWR) < 0 then
    -- failed to re-open for write: restore flags and return the error
    .ret (env.openRes (s.lastFlags ||| O_RDWR)) s
      [.baseOpen (s.lastFlags ||| O_RDWR), .baseOpen s.lastFlags]
  else
    let env1 := if needReopen then { env with writable := true } else env
    let main : HRes :=
      if !s.haveHeader then .ret (env1.truncateBaseFull size) s []
      else
        match (if s.fileIV = 0 then initHeader s c env1 fuel else .ret 0 s []) with
        | .noFuel => .noFuel
        | .assertFail s1 tr => .assertFail s1 tr
        | .ret r s1 tr =>
          let r1 := if r = 0 then env1.chunkerTruncate size else r
          let r2 := if r1 = 0 then env1.baseTruncate (size + HEADER_SIZE) else r1
          .ret r2 s1 tr
    match main with
    | .noFuel => .noFuel
    | .assertFail s1 tr => .assertFail s1 tr
    | .ret r s1 tr =>
      if needReopen then
        let reopenRes := env.openRes s.lastFlags
        if r < 0 then .ret reopenRes s1 (tr ++ [.baseOpen s.lastFlags])
        else .ret r s1 (tr ++ [.baseOpen s.lastFlags])
      else .ret r s1 tr

/-! Concrete fixtures for counterexamples and witnesses. -/

/-- Identity cipher with native block size 4, used for concrete runs. -/
def cEx : Cipher :=
  { cipherBlockSize := 4
    streamEncode := fun b _ => some b
    streamDecode := fun b _ => some b
    blockEncode := fun b _ => some b
    blockDecode := fun b _ => some b
    sha1 := fun _ => [1, 2, 3, 4, 5, 6, 7, 8, 9, 10, 11, 12, 13, 14, 15, 16, 17, 18, 19, 20] }

/-- Baseline benign backing-store oracle. -/
def envBase : Env :=
  { rawSize := 0
    baseRead := fun _ _ => (0, [])
    writeAt := fun _ _ => 0
    randomize := fun _ => none
    writable := true
    openRes := fun _ => 0
    baseSetIV := fun _ => true
    truncateBaseFull := fun _ => 0
    chunkerTruncate := fun _ => 0
    baseTruncate := fun _ => 0
    rangeRead := fun _ _ => (0, [])
    getAttrRes := 0
    stat := { isReg := true, size := 0, ino := 1 } }

/-- Baseline instance state. -/
def sBase : FState :=
  { haveHeader := false, reverse := false, haveCBCPadding := false,
    allowHoles := false, externalIV := 0, fileIV := 0, lastFlags := 0,
    blockSize := 4 }

/-- Header-bearing instance with an established external IV and file IV. -/
def s0 : FState := { sBase with haveHeader := true, externalIV := 5, fileIV := 258 }

/-- Backing store for the `setIV` runs: header present, writes succeed. -/
def env0 : Env := { envBase with rawSize := 16, writeAt := fun _ _ => 8 }

/-- Header-bearing instance whose on-disk header decodes to all zero. -/
def s9 : FState := { sBase with haveHeader := true, externalIV := 3 }

/-- Backing store whose 8-byte header reads back as all-zero bytes. -/
def env9 : Env :=
  { envBase with rawSize := 8, baseRead := fun _ _ => (8, [0, 0, 0, 0, 0, 0, 0, 0]) }

/-- Backing store whose 8-byte header decodes to the value 258. -/
def envW : Env :=
  { envBase with rawSize := 9, baseRead := fun _ _ => (8, [0, 0, 0, 0, 0, 0, 1, 2]) }

/-- Header-bearing instance for the truncate run. -/
def s3f : FState :=
  { sBase with haveHeader := true, externalIV := 1, fileIV := 7, blockSize := 1024 }

/-- Backing store for the truncate run: opened read-only (re-open needed and
succeeding), logical truncate fine, backing `truncate` failing with `-5`. -/
def env3 : Env :=
  { envBase with writable := false,
                 openRes := fun f => if f = 0 then 3 else 4,
                 baseTruncate := fun _ => -5 }

/-- Padded normal-mode instance (configured block size 8, effective 7),
holes enabled. -/
def s4 : FState := { sBase with haveCBCPadding := true, allowHoles := true, blockSize := 7 }

/-- Backing store returning one padded 8-byte ciphertext block. -/
def env4 : Env :=
  { envBase with baseRead := fun _ _ => (8, [1, 2, 3, 0x80, 0, 0, 0, 0]) }

/-- A one-block read request over effective block size 7. -/
def req4 : IORequest := { offset := 0, dataLen := 7, data := [] }

/-- Reverse-mode instance with headers. -/
def s5 : FState := { sBase with reverse := true, haveHeader := true, externalIV := 9 }

/-- Backing plaintext store for the reverse read: range reads return nines. -/
def env5 : Env :=
  { envBase with rangeRead := fun _ l => ((l : Int), List.replicate l 9),
                 stat := { isReg := true, size := 50, ino := 1 } }

/-- A request straddling the virtual header boundary (offset 4, length 10). -/
def req5 : IORequest := { offset := 4, dataLen := 10, data := [] }

/-- Unpadded instance with established file IV 5. -/
def s8 : FState := { sBase with fileIV := 5 }

/-- Backing store returning one full 4-byte block. -/
def env8 : Env := { envBase with baseRead := fun _ _ => (4, [1, 2, 3, 4]) }

/-- A full-block read request at offset 8 (block number 2). -/
def req8r : IORequest := { offset := 8, dataLen := 4, data := [] }

/-- A partial-block write request at offset 8 (block number 2). -/
def req8w : IORequest := { offset := 8, dataLen := 3, data := [9, 9, 9] }

/-- Reverse-mode instance with per-file IV headers requested. -/
def s10 : FState := { sBase with haveHeader := true, reverse := true }

/-- Header-and-padding instance for the size-translation witness. -/
def s7 : FState :=
  { sBase with haveHeader := true, haveCBCPadding := true, blockSize := 15 }

/-- The candidate header bytes `generateReverseHeader` hashes out of the
inode number: first 8 bytes of `SHA1(serialize(ino))`. -/
def reverseHeaderBuf (c : Cipher) (env : Env) : List Nat :=
  bufFix HEADER_SIZE (c.sha1 (leBytes env.stat.ino 8))

/-- The per-file IV reverse mode derives: big-endian value of the candidate
header bytes. -/
def reverseFileIV (c : Cipher) (env : Env) : Nat :=
  beBytesToU64 (reverseHeaderBuf c env)

/-! Helper lemmas. -/

/-- Appending a byte does not change the bounded backward zero scan below the
old length. -/
theorem countTrailingZeros_append (xs : List Nat) (a : Nat) (k : Nat)
    (hk : k ≤ xs.length) :
    countTrailingZeros (xs ++ [a]) k = countTrailingZeros xs k := by
  induction k with
  | zero => rfl
  | succ k ih =>
    have hgd : (xs ++ [a]).getD k 0 = xs.getD k 0 := by
      unfold List.getD
      rw [List.get?_append (by omega)]
    simp only [countTrailingZeros, hgd]
    rw [ih (by omega)]

/-- The source's bounded backward scan over the whole buffer computes the
length of the maximal all-zero suffix. -/
theorem countTrailingZeros_eq (l : List Nat) :
    countTrailingZeros l l.length = trailingZeroCount l := by
  induction l using List.reverseRecOn with
  | nil => rfl
  | append_singleton xs a ih =>
    have hlen : (xs ++ [a]).length = xs.length + 1 := by simp
    rw [hlen]
    have hgd : (xs ++ [a]).getD xs.length 0 = a := by
      unfold List.getD
      rw [List.get?_concat_length]
      rfl
    simp only [countTrailingZeros, hgd]
    by_cases ha : a = 0
    · rw [if_pos ha, countTrailingZeros_append xs a xs.length (by omega), ih]
      simp [trailingZeroCount, ha]
    · rw [if_neg ha]
      simp [trailingZeroCount, ha]

/-- An all-zero buffer has an all-zero suffix of full length. -/
theorem trailingZeroCount_all_zero (l : List Nat) (h : ∀ b ∈ l, b = 0) :
    trailingZeroCount l = l.length := by
  unfold trailingZeroCount
  rw [List.takeWhile_eq_self_iff.mpr (by intro a ha; simp [h a (List.mem_reverse.mp ha)])]
  simp

/-- In normal mode `blockRead`'s decode preserves the buffer length (either
the hole bypass returns the buffer itself or the length-preserving cipher
decode runs). -/
theorem blockRead_len (s : FState) (c : Cipher) (buf o : List Nat) (iv : Nat)
    (hrev : s.reverse = false) (hc : c.BlockDecodeLen)
    (h : blockRead s c buf iv = some o) : o.length = buf.length := by
  unfold blockRead at h
  rw [hrev] at h
  simp only [Bool.false_eq_true, if_false] at h
  split at h
  · cases h; rfl
  · exact hc _ _ _ h

/-- `writeHeader` never touches the external IV. -/
theorem writeHeader_externalIV (s : FState) (c : Cipher) (env : Env) :
    (writeHeader s c env).2.1.externalIV = s.externalIV := by
  unfold writeHeader
  dsimp only
  split <;> rfl

/-- `writeHeader` leaves the member `fileIV` shifted down by 64 bits. -/
theorem writeHeader_fileIV (s : FState) (c : Cipher) (env : Env) :
    (writeHeader s c env).2.1.fileIV = s.fileIV >>> 64 := by
  unfold writeHeader
  dsimp only
  split <;> rfl

/-- `initHeader` never touches the external IV, in any outcome. -/
theorem initHeader_externalIV (s : FState) (c : Cipher) (env : Env) (fuel : Nat) :
    (∀ r s1 tr, initHeader s c env fuel = .ret r s1 tr → s1.externalIV = s.externalIV) ∧
    (∀ s1 tr, initHeader s c env fuel = .assertFail s1 tr → s1.externalIV = s.externalIV) := by
  constructor
  · intro r s1 tr h
    unfold initHeader at h
    dsimp only at h
    split at h
    · split at h
      · cases h; rfl
      · split at h
        · cases h; rfl
        · split at h
          · cases h
          · cases h; rfl
    · split at h
      · cases h
      · cases h; rfl
      · split at h
        · split at h
          · cases h; rfl
          · split at h <;> (cases h; rfl)
        · cases h; rfl
  · intro s1 tr h
    unfold initHeader at h
    dsimp only at h
    split at h
    · split at h
      · cases h
      · split at h
        · cases h
        · split at h
          · cases h; rfl
          · cases h
    · split at h
      · cases h
      · cases h
      · split at h
        · split at h
          · cases h
          · split at h <;> cases h
        · cases h

/-- Key division identity behind the padded size round-trip: with plaintext
block capacity `B`, a plaintext size `n` grows by `q = (n-1)/B` marker bytes,
and the grown size divides back to `q` blocks of `B + 1`. -/
theorem padded_size_div_key (n B : Nat) (hB : 1 ≤ B) (hn : 1 ≤ n) :
    (n + (n - 1) / B) / (B + 1) = (n - 1) / B := by
  have hd := Nat.div_add_mod (n - 1) B
  have hr : (n - 1) % B < B := Nat.mod_lt _ hB
  have hmul : ((n - 1) / B) * (B + 1) = B * ((n - 1) / B) + (n - 1) / B := by ring
  have h1 : n + (n - 1) / B = ((n - 1) % B + 1) + ((n - 1) / B) * (B + 1) := by
    rw [hmul]; omega
  have h2 : ((n - 1) % B + 1) / (B + 1) = 0 := Nat.div_eq_of_lt (by omega)
  rw [h1, Nat.add_mul_div_right _ _ (Nat.succ_pos B), h2, Nat.zero_add]

/-- In reverse mode the size arithmetic never fires an assertion. -/
theorem adjustSize_reverse_ok (s : FState) (cbs sz : Nat) (hrev : s.reverse = true) :
    ∃ k, adjustSize s cbs sz = .ok k := by
  unfold adjustSize
  rw [hrev]
  simp only [Bool.not_true, Bool.false_eq_true, if_false]
  split
  · exact ⟨_, rfl⟩
  · exact ⟨_, rfl⟩

/-- The identity cipher fixture preserves buffer length on block decode. -/
theorem cEx_blockDecodeLen : cEx.BlockDecodeLen := by
  intro b iv o h
  simp only [cEx] at h
  cases h
  rfl

/-! Claim theorems. -/

/-- C10: every `writeOneBlock` call in reverse mode with per-file IV headers
enabled fails with `-EPERM`, leaves the instance state unchanged and performs
no cipher transform and no write to the backing store (empty effect trace). -/
theorem writeOneBlock_reverse_eperm (s : FState) (c : Cipher) (env : Env)
    (req : IORequest) (fuel : Nat)
    (hh : s.haveHeader = true) (hrev : s.reverse = true) :
    writeOneBlock s c env req fuel = .ret (-EPERM) s [] := by
  unfold writeOneBlock
  rw [if_pos ⟨hh, hrev⟩]

/-- Witness for C10 at a concrete reverse-mode instance and request. -/
theorem writeOneBlock_reverse_eperm_witness :
    writeOneBlock s10 cEx envBase req8w 1 = .ret (-EPERM) s10 [] :=
  writeOneBlock_reverse_eperm s10 cEx envBase req8w 1 (by decide) (by decide)

/-- C3 (code bug evaluated at the failing input): a header-bearing file
opened read-only is truncated; the logical truncate succeeds but the backing
`truncate(size + 8)` fails with `-5`. Because the restore step executes
`if (res < 0) res = reopen;`, `truncate` returns the restoring `open`'s
successful result `3` instead of the error `-5`: the first failing step's
error is not the value returned to the caller. -/
theorem truncate_error_swallowed :
    truncate s3f cEx env3 100 1 = .ret 3 s3f [Eff.baseOpen 0] ∧
    env3.baseTruncate (100 + HEADER_SIZE) = -5 ∧ (0 : Int) ≤ 3 := by
  refine ⟨by decide, by decide, by decide⟩

/-- C7: `adjustSize` (the arithmetic shared by `getSize` and `getAttr`)
subtracts the 8-byte header first and only then applies padding shrinkage in
normal mode; in reverse mode it applies padding growth first and then adds 8;
and `getAttr` adjusts only regular files, passing everything else through
unmodified. -/
theorem size_translation (s : FState) (cbs : Nat) (env : Env) (sz : Nat) :
    (s.reverse = false → s.haveHeader = true → 0 < sz →
       adjustSize s cbs sz = GRes.bind (headerShrink sz) (fun z =>
         if s.haveCBCPadding ∧ 0 < z then paddingShrink s.blockSize cbs z
         else .ok z)) ∧
    (s.reverse = true → 0 < sz →
       adjustSize s cbs sz =
         .ok ((if s.haveCBCPadding then paddingGrow s.blockSize cbs sz else sz) +
              (if s.haveHeader then HEADER_SIZE else 0))) ∧
    (¬(env.getAttrRes = 0 ∧ env.stat.isReg = true) →
       getAttr s cbs env = .ok env.getAttrRes env.stat) ∧
    (env.getAttrRes = 0 → env.stat.isReg = true → ∀ k,
       adjustSize s cbs env.stat.size = .ok k →
       getAttr s cbs env = .ok 0 { env.stat with size := k }) := by
  refine ⟨?_, ?_, ?_, ?_⟩
  · intro hrev hh hsz
    simp only [adjustSize, headerShrink, hrev, hh, Bool.not_false, if_true,
      true_and, hsz, if_pos]
    by_cases h8 : HEADER_SIZE ≤ sz
    · simp only [if_pos h8, GRes.bind, paddingShrink]
    · simp only [if_neg h8, GRes.bind]
  · intro hrev hsz
    simp only [adjustSize, hrev, Bool.not_true, Bool.false_eq_true, if_false,
      if_pos hsz, paddingGrow]
    split
    · split <;> simp
    · split <;> simp
  · intro hne
    unfold getAttr
    rw [if_neg (by simpa using hne)]
  · intro hres hreg k hk
    unfold getAttr
    rw [if_pos ⟨hres, hreg⟩, hk, hres]

/-- Witness for C7: concrete header-and-padding instance, raw size 100
(header subtraction to 92, then padding shrinkage to 72), and a pass-through
`getAttr` on a non-regular backing entry. -/
theorem size_translation_witness :
    adjustSize s7 16 100 = GRes.ok 72 ∧
    getAttr s7 16 { envBase with stat := { isReg := false, size := 33, ino := 4 } } =
      .ok 0 { isReg := false, size := 33, ino := 4 } := by
  constructor
  · exact (size_translation s7 16 envBase 100).1 (by decide) (by decide) (by decide)
  · exact (size_translation s7 16
      { envBase with stat := { isReg := false, size := 33, ino := 4 } } 100).2.2.1
      (by decide)

/-- C6: over the same configured block size `C`, the plaintext-to-ciphertext
map (the padding branch `adjustSize` runs on a padded reverse mount, whose
effective block size is `C`) and the ciphertext-to-plaintext map (the branch
run on a padded normal mount, whose effective block size is `C - 1`) are
mutually inverse on the achievable sizes, and both fix 0. -/
theorem size_roundtrip (C cbs n m : Nat) (hC : 2 ≤ C) :
    (1 ≤ n → plaintextToCiphertextSize C cbs n = .ok m →
       ciphertextToPlaintextSize C cbs m = .ok n) ∧
    ((∃ n0, 1 ≤ n0 ∧ plaintextToCiphertextSize C cbs n0 = .ok m) →
       ∃ p, ciphertextToPlaintextSize C cbs m = .ok p ∧
            plaintextToCiphertextSize C cbs p = .ok m) ∧
    plaintextToCiphertextSize C cbs 0 = .ok 0 ∧
    ciphertextToPlaintextSize C cbs 0 = .ok 0 := by
  have hB : 1 ≤ C - 1 := by omega
  have hbsR : (reversePadInstance C).blockSize = C := by
    simp [reversePadInstance, ctorBlockSize, checkCBCPadding]
  have hbsN : (normalPadInstance C).blockSize = C - 1 := by
    simp [normalPadInstance, ctorBlockSize, checkCBCPadding]
  have hp2c : ∀ k, 1 ≤ k →
      plaintextToCiphertextSize C cbs k = .ok (k + (k - 1) / (C - 1) + cbs) := by
    intro k hk
    unfold plaintextToCiphertextSize adjustSize
    rw [hbsR]
    simp [reversePadInstance, hk]
    intro h0
    omega
  have hfwd : ∀ k, 1 ≤ k →
      ciphertextToPlaintextSize C cbs (k + (k - 1) / (C - 1) + cbs) = .ok k := by
    intro k hk
    unfold ciphertextToPlaintextSize adjustSize
    rw [hbsN]
    have hpos : 0 < k + (k - 1) / (C - 1) + cbs :=
      Nat.lt_of_lt_of_le hk (Nat.le_trans (Nat.le_add_right _ _) (Nat.le_add_right _ _))
    have hcbs : cbs ≤ k + (k - 1) / (C - 1) + cbs := Nat.le_add_left cbs _
    simp only [normalPadInstance, Bool.not_false, if_true, Bool.false_eq_true,
      false_and, if_false, true_and, if_pos hpos, if_pos hcbs]
    have hsub : k + (k - 1) / (C - 1) + cbs - cbs = k + (k - 1) / (C - 1) := by
      omega
    have hCC : C - 1 + 1 = C := by omega
    have hdiv : (k + (k - 1) / (C - 1)) / C = (k - 1) / (C - 1) := by
      rw [← hCC]
      exact padded_size_div_key k (C - 1) hB hk
    rw [hsub, hCC, hdiv]
    congr 1
    omega
  refine ⟨?_, ?_, ?_, ?_⟩
  · intro hn hm
    rw [hp2c n hn] at hm
    cases hm
    exact hfwd n hn
  · rintro ⟨n0, hn0, hm⟩
    rw [hp2c n0 hn0] at hm
    cases hm
    exact ⟨n0, hfwd n0 hn0, hp2c n0 hn0⟩
  · unfold plaintextToCiphertextSize adjustSize
    simp [reversePadInstance]
  · unfold ciphertextToPlaintextSize adjustSize
    simp [normalPadInstance]

/-- Witness for C6 at configured block size 4 (effective capacity 3) and
cipher block size 16: plaintext 5 maps to ciphertext 22 and back. -/
theorem size_roundtrip_witness :
    ciphertextToPlaintextSize 4 16 22 = .ok 5 ∧
    (∃ p, ciphertextToPlaintextSize 4 16 22 = .ok p ∧
          plaintextToCiphertextSize 4 16 p = .ok 22) := by
  constructor
  · exact (size_roundtrip 4 16 5 22 (by decide)).1 (by decide) (by decide)
  · exact (size_roundtrip 4 16 5 22 (by decide)).2.1 ⟨5, by decide, by decide⟩

/-- C1 (counterexample): on an instance with established non-zero
`fileIV = 258` and `externalIV = 5`, a successful `setIV 7` (every backing
call succeeding) returns `true` but leaves `fileIV = 0`, not the established
non-zero per-file IV: `writeHeader`'s serialization loop consumed the member. -/
theorem setIV_fileIV_cleared_cex :
    s0.fileIV = 258 ∧
    setIV s0 cEx env0 7 1 =
      .ret true { s0 with externalIV := 7, fileIV := 0 }
        [Eff.baseOpen 2, Eff.baseWrite 0 [0, 0, 0, 0, 0, 0, 1, 2]] := by
  exact ⟨by decide, by decide⟩

/-- C1 (amended): after `setIV` on a header-bearing file (non-directory)
with established `externalIV` and `fileIV` succeeds by re-encrypting and
writing the header through `writeHeader`, the member `fileIV` is 0 (the
"not yet loaded" sentinel), because `writeHeader`'s serialization loop
`buf[7-i] = fileIV & 0xff; fileIV >>= 8` destroys it; it is re-read from the
on-disk header on the next header access rather than staying non-zero. -/
theorem setIV_success_clears_fileIV (s : FState) (c : Cipher) (env : Env)
    (iv fuel : Nat) (s1 : FState) (tr : List Eff)
    (hext : s.externalIV ≠ 0) (hh : s.haveHeader = true)
    (hfiv : s.fileIV ≠ 0) (hbits : s.fileIV < 2 ^ 64)
    (hnd : env.openRes (s.lastFlags ||| O_RDWR) ≠ -EISDIR)
    (h : setIV s c env iv fuel = .ret true s1 tr) :
    s1.fileIV = 0 := by
  unfold setIV at h
  simp only [hext, hh, hfiv, hnd, if_false, if_true, ite_true, ite_false,
    eq_self_iff_true, lt_self_iff_false] at h
  split at h
  · -- re-open for write failed (non-directory): the call returned false
    injection h with h1 h2 h3
    exact absurd h1 (by decide)
  · -- re-open succeeded; `fileIV ≠ 0` skips `initHeader`; `writeHeader` runs
    split at h
    · -- writeHeader succeeded: the returned state is writeHeader's state
      injection h with h1 h2 h3
      rw [← h2, writeHeader_fileIV, Nat.shiftRight_eq_div_pow]
      exact Nat.div_eq_of_lt hbits
    · injection h with h1 h2 h3
      exact absurd h1 (by decide)

/-- Witness for the amended C1 theorem at the concrete `setIV` run. -/
theorem setIV_success_clears_fileIV_witness :
    ({ s0 with externalIV := 7, fileIV := 0 } : FState).fileIV = 0 :=
  setIV_success_clears_fileIV s0 cEx env0 7 1
    { s0 with externalIV := 7, fileIV := 0 }
    [Eff.baseOpen 2, Eff.baseWrite 0 [0, 0, 0, 0, 0, 0, 1, 2]]
    (by decide) (by decide) (by decide) (by decide) (by decide) (by decide)

/-- C2: on a header-bearing file (not a directory) whose `externalIV` is
already set, `setIV` commits the new external IV exactly when it returns
`true` (which requires the header rewrite to have succeeded); on any failing
step — reopening read-write, establishing the header, or re-encrypting and
writing the header — it reports failure and the prior `externalIV` is intact
(also when header establishment dies on an assertion). The hypothesis
`baseSetIV iv = true` isolates the three steps the claim talks about. -/
theorem setIV_externalIV_atomic (s : FState) (c : Cipher) (env : Env)
    (iv fuel : Nat)
    (hext : s.externalIV ≠ 0) (hh : s.haveHeader = true)
    (hnd : env.openRes (s.lastFlags ||| O_RDWR) ≠ -EISDIR)
    (hset : env.baseSetIV iv = true) :
    (∀ b s1 tr, setIV s c env iv fuel = .ret b s1 tr →
        (b = true → s1.externalIV = iv) ∧
        (b = false → s1.externalIV = s.externalIV)) ∧
    (∀ s1 tr, setIV s c env iv fuel = .assertFail s1 tr →
        s1.externalIV = s.externalIV) := by
  constructor
  · intro b s1 tr h
    unfold setIV at h
    simp only [hext, hh, hnd, if_false, if_true, ite_true, ite_false,
      eq_self_iff_true, lt_self_iff_false, hset] at h
    split at h
    · -- re-open for write failed: `return false`, state untouched
      injection h with h1 h2 h3
      subst h1
      subst h2
      exact ⟨fun hb => absurd hb (by decide), fun _ => rfl⟩
    · -- re-open succeeded
      split at h
      next heq => cases h
      next s' tr' heq => cases h
      next r s' tr' heq =>
        have hs' : s'.externalIV = s.externalIV := by
          split at heq
          · exact (initHeader_externalIV s c { env with writable := true } fuel).1
              _ _ _ heq
          · injection heq with e1 e2 e3
            rw [← e2]
        split at h
        · -- `initHeader` failed: `return false`, its state kept
          injection h with h1 h2 h3
          subst h1
          subst h2
          exact ⟨fun hb => absurd hb (by decide), fun _ => hs'⟩
        · -- `writeHeader` ran
          split at h
          · -- header rewrite succeeded: new external IV committed
            injection h with h1 h2 h3
            subst h2
            refine ⟨fun _ => ?_, fun hb => ?_⟩
            · rw [writeHeader_externalIV]
            · first
              | exact absurd hb (by decide)
              | exact absurd (h1.trans hb) (by decide)
          · -- header rewrite failed: old external IV restored
            injection h with h1 h2 h3
            subst h1
            subst h2
            exact ⟨fun hb => absurd hb (by decide), fun _ => hs'⟩
  · intro s1 tr h
    unfold setIV at h
    simp only [hext, hh, hnd, if_false, if_true, ite_true, ite_false,
      eq_self_iff_true, lt_self_iff_false, hset] at h
    split at h
    · cases h
    · split at h
      next heq => cases h
      next s' tr' heq =>
        injection h with h1 h2
        subst h1
        split at heq
        · exact (initHeader_externalIV s c { env with writable := true } fuel).2
            _ _ heq
        · cases heq
      next r s' tr' heq =>
        split at h
        · cases h
        · split at h <;> cases h

/-- Witness for C2 at the concrete successful `setIV` run: the new external
IV 7 is committed. -/
theorem setIV_externalIV_atomic_witness :
    ({ s0 with externalIV := 7, fileIV := 0 } : FState).externalIV = 7 :=
  ((setIV_externalIV_atomic s0 cEx env0 7 1 (by decide) (by decide) (by decide)
      (by decide)).1 true { s0 with externalIV := 7, fileIV := 0 }
    [Eff.baseOpen 2, Eff.baseWrite 0 [0, 0, 0, 0, 0, 0, 1, 2]]
    (by decide)).1 rfl

/-- C9 (counterexample): when the stored header decrypts successfully to the
all-zero value, `initHeader` does not fail with `BadMessage`: it returns no
code at all — the `rAssert(fileIV != 0)` fires (an exception in the source).
The fixture's identity cipher decodes the stored `[0,...,0]` header to 0. -/
theorem initHeader_zero_iv_not_badmessage :
    (initHeader s9 cEx env9 1).retCode = none ∧
    (initHeader s9 cEx env9 1).isAssertFail = true ∧
    cEx.streamDecode [0, 0, 0, 0, 0, 0, 0, 0] s9.externalIV =
      some [0, 0, 0, 0, 0, 0, 0, 0] ∧
    beBytesToU64 [0, 0, 0, 0, 0, 0, 0, 0] = 0 := by
  exact ⟨by decide, by decide, by decide, by decide⟩

/-- C9 (amended): `initHeader` with raw size at least 8 reads the first
8 bytes, stream-decrypts them under `externalIV` and interprets them
big-endian; a read error is propagated, a decryption failure yields
`-EBADMSG`, a non-zero decoded value is installed as `fileIV` with success,
and a decoded value of exactly 0 fires the defensive assertion (not
BadMessage). With raw size below 8 it generates 8 random bytes, regenerating
while they decode to 0, installs the value as `fileIV`, and persists the
`externalIV`-encrypted header at offset 0 only when the backing file is
writable, succeeding without any write when it is not. -/
theorem initHeader_behavior (s : FState) (c : Cipher) (env : Env) (fuel : Nat)
    (rs : Int) (buf : List Nat) :
    (HEADER_SIZE ≤ env.rawSize → env.baseRead 0 8 = (rs, buf) →
      ((rs < 0 → initHeader s c env fuel = .ret rs s []) ∧
       (0 ≤ rs → c.streamDecode (bufFix 8 buf) s.externalIV = none →
          initHeader s c env fuel = .ret (-EBADMSG) s []) ∧
       (∀ dec, 0 ≤ rs → c.streamDecode (bufFix 8 buf) s.externalIV = some dec →
          (beBytesToU64 dec ≠ 0 →
             initHeader s c env fuel = .ret 0 { s with fileIV := beBytesToU64 dec } []) ∧
          (beBytesToU64 dec = 0 →
             initHeader s c env fuel = .assertFail { s with fileIV := 0 } [])))) ∧
    (env.rawSize < HEADER_SIZE → ∀ rbuf, env.randomize 0 = some rbuf →
       beBytesToU64 (bufFix 8 rbuf) ≠ 0 →
       ((env.writable = false →
           initHeader s c env (fuel + 1) =
             .ret 0 { s with fileIV := beBytesToU64 (bufFix 8 rbuf) } []) ∧
        (env.writable = true → ∀ enc,
           c.streamEncode (bufFix 8 rbuf) s.externalIV = some enc →
           0 ≤ env.writeAt 0 enc →
           initHeader s c env (fuel + 1) =
             .ret 0 { s with fileIV := beBytesToU64 (bufFix 8 rbuf) }
               [.baseWrite 0 enc]))) ∧
    (env.rawSize < HEADER_SIZE → ∀ zbuf rbuf,
       env.randomize 0 = some zbuf → beBytesToU64 (bufFix 8 zbuf) = 0 →
       env.randomize 1 = some rbuf → beBytesToU64 (bufFix 8 rbuf) ≠ 0 →
       env.writable = false →
       initHeader s c env (fuel + 2) =
         .ret 0 { s with fileIV := beBytesToU64 (bufFix 8 rbuf) } []) := by
  refine ⟨?_, ?_, ?_⟩
  · intro hraw hread
    have hnotlt : ¬env.rawSize < HEADER_SIZE := not_lt.mpr hraw
    refine ⟨?_, ?_, ?_⟩
    · intro hrs
      unfold initHeader
      rw [if_pos hraw, hread]
      dsimp only
      rw [if_pos hrs]
    · intro hrs hdec
      unfold initHeader
      rw [if_pos hraw, hread]
      dsimp only
      rw [if_neg (not_lt.mpr hrs), hdec]
    · intro dec hrs hdec
      constructor
      · intro hne
        unfold initHeader
        rw [if_pos hraw, hread]
        dsimp only
        rw [if_neg (not_lt.mpr hrs), hdec]
        dsimp only
        rw [if_neg hne]
      · intro hz
        unfold initHeader
        rw [if_pos hraw, hread]
        dsimp only
        rw [if_neg (not_lt.mpr hrs), hdec]
        dsimp only
        rw [if_pos hz, hz]
  · intro hraw rbuf hrand hne
    have hloop : randLoop env 0 (fuel + 1) = .ok (bufFix 8 rbuf) (beBytesToU64 (bufFix 8 rbuf)) := by
      unfold randLoop
      rw [hrand]
      dsimp only
      rw [if_neg hne]
    constructor
    · intro hw
      unfold initHeader
      rw [if_neg (not_le.mpr hraw), hloop]
      dsimp only
      rw [hw, if_neg (show ¬(false = true) by decide)]
    · intro hw enc henc hwr
      unfold initHeader
      rw [if_neg (not_le.mpr hraw), hloop]
      dsimp only
      rw [hw, if_pos rfl, henc]
      dsimp only
      rw [if_neg (not_lt.mpr hwr)]
  · intro hraw zbuf rbuf hrand0 hz0 hrand1 hne hw
    have hloop : randLoop env 0 (fuel + 2) = .ok (bufFix 8 rbuf) (beBytesToU64 (bufFix 8 rbuf)) := by
      unfold randLoop
      rw [hrand0]
      dsimp only
      rw [if_pos hz0]
      unfold randLoop
      rw [hrand1]
      dsimp only
      rw [if_neg hne]
    unfold initHeader
    rw [if_neg (not_le.mpr hraw), hloop]
    dsimp only
    rw [hw, if_neg (show ¬(false = true) by decide)]

/-- Witness for the amended C9 theorem: a stored header decoding to 258 is
installed as the file IV with success. -/
theorem initHeader_behavior_witness :
    initHeader s9 cEx envW 1 = .ret 0 { s9 with fileIV := 258 } [] :=
  (((initHeader_behavior s9 cEx envW 1 8 [0, 0, 0, 0, 0, 0, 1, 2]).1
      (by decide) (by decide)).2.2 [0, 0, 0, 0, 0, 0, 1, 2]
    (by decide) (by decide)).1 (by decide)

/-- C8: every per-block transform is keyed by the numeric IV
`blockNum ^^^ fileIV` with `blockNum = offset / effectiveBlockSize`, and the
cipher mode is selected by length — a buffer of exactly the effective block
size goes through block-cipher mode, any other length through stream-cipher
mode — both in `readOneBlock` (its stream/block selection path) and in
`writeOneBlock`. -/
theorem block_iv_and_mode (s : FState) (c : Cipher) (env : Env)
    (req : IORequest) (fuel : Nat) (rs : Int) (data : List Nat)
    (hiv : s.fileIV ≠ 0) :
    (s.haveCBCPadding = false →
       env.baseRead (readAdjOff s req) (readAdjLen s req) = (rs, data) →
       0 < rs →
       (readOneBlock s c env req fuel).trace =
         some [if rs.toNat = s.blockSize then
                 Eff.blockCipherOp ((req.offset / s.blockSize) ^^^ s.fileIV) rs.toNat
               else
                 Eff.streamCipherOp ((req.offset / s.blockSize) ^^^ s.fileIV) rs.toNat]) ∧
    (¬(s.haveHeader = true ∧ s.reverse = true) →
       ∃ rest, (writeOneBlock s c env req fuel).trace =
         some ((if req.dataLen = s.blockSize then
                  Eff.blockCipherOp ((req.offset / s.blockSize) ^^^ s.fileIV) req.dataLen
                else
                  Eff.streamCipherOp ((req.offset / s.blockSize) ^^^ s.fileIV) req.dataLen)
               :: rest)) := by
  constructor
  · intro hpad hread hrs
    unfold readOneBlock
    rw [hread]
    dsimp only
    rw [if_neg (by simp [hiv])]
    dsimp only
    rw [if_neg (by decide : ¬((0 : Int) < 0)), if_neg (by simp [hpad]), if_pos hrs]
    by_cases hbs : rs.toNat = s.blockSize
    · rw [if_neg (not_not_intro hbs)]
      cases hbr : blockRead s c (data.take rs.toNat)
          ((req.offset / s.blockSize) ^^^ s.fileIV) <;>
        simp [RRes.trace, hbs]
    · rw [if_pos hbs]
      cases hsr : streamRead s c (data.take rs.toNat)
          ((req.offset / s.blockSize) ^^^ s.fileIV) <;>
        simp [RRes.trace, hbs]
  · intro hwr
    unfold writeOneBlock
    rw [if_neg hwr]
    dsimp only
    rw [if_neg (by simp [hiv])]
    dsimp only
    rw [if_neg (by decide : ¬((0 : Int) < 0))]
    by_cases hbs : req.dataLen = s.blockSize
    · rw [if_neg (not_not_intro hbs)]
      cases hbw : blockWrite s c (req.data.take req.dataLen)
          ((req.offset / s.blockSize) ^^^ s.fileIV) with
      | none => exact ⟨[], by simp [HRes.trace, hbs]⟩
      | some enc =>
        exact ⟨[Eff.baseWrite (if s.haveHeader then req.offset + HEADER_SIZE else req.offset) enc],
          by simp [HRes.trace, hbs]⟩
    · rw [if_pos hbs]
      cases hsw : streamWrite s c (req.data.take req.dataLen)
          ((req.offset / s.blockSize) ^^^ s.fileIV) with
      | none => exact ⟨[], by simp [HRes.trace, hbs]⟩
      | some enc =>
        exact ⟨[Eff.baseWrite (if s.haveHeader then req.offset + HEADER_SIZE else req.offset) enc],
          by simp [HRes.trace, hbs]⟩

/-- Witness for C8: a full-block read at offset 8 (block 2, file IV 5) is
block-decoded under IV `2 ^^^ 5 = 7`, and a 3-byte write at the same offset
is stream-encoded under the same IV. -/
theorem block_iv_and_mode_witness :
    (readOneBlock s8 cEx env8 req8r 1).trace = some [Eff.blockCipherOp 7 4] ∧
    (∃ rest, (writeOneBlock s8 cEx env8 req8w 1).trace =
       some (Eff.streamCipherOp 7 3 :: rest)) := by
  constructor
  · exact (block_iv_and_mode s8 cEx env8 req8r 1 4 [1, 2, 3, 4] (by decide)).1
      (by decide) (by decide) (by decide)
  · exact (block_iv_and_mode s8 cEx env8 req8w 1 4 [1, 2, 3, 4] (by decide)).2
      (by decide)

/-- C4: the padded non-reverse per-block decode of `readOneBlock` equals the
spec pipeline `specPaddedDecode` (strip the raw read count to a multiple of
the cipher native block size, decode, scan trailing `0x00` bytes backward,
expect one `0x80` marker and truncate there); an all-zero decoded buffer of
the full extended block length `blockSize + 1` with hole support yields
logical length `blockSize` (one short of the nominal block size); and a
buffer whose `0x80` marker is absent where expected yields `-EBADMSG`. -/
theorem readOneBlock_padded_decode (s : FState) (c : Cipher) (env : Env)
    (req : IORequest) (fuel : Nat) (rs : Int) (data : List Nat) (m : Nat)
    (hpad : s.haveCBCPadding = true) (hrev : s.reverse = false)
    (hnh : s.haveHeader = false)
    (hread : env.baseRead (readAdjOff s req) (readAdjLen s req) = (rs, data))
    (hrs : 0 ≤ rs) (hdl : rs.toNat ≤ data.length)
    (hclen : c.BlockDecodeLen)
    (hm : m = rs.toNat - rs.toNat % c.cipherBlockSize) :
    (readOneBlock s c env req fuel =
       .ret (specPaddedDecode s c rs.toNat data ((req.offset / s.blockSize) ^^^ s.fileIV)).1
            (specPaddedDecode s c rs.toNat data ((req.offset / s.blockSize) ^^^ s.fileIV)).2
            s
            (if m = 0 then []
             else [Eff.blockCipherOp ((req.offset / s.blockSize) ^^^ s.fileIV) m])) ∧
    (∀ dec, blockRead s c (data.take m) ((req.offset / s.blockSize) ^^^ s.fileIV) = some dec →
       (∀ b ∈ dec, b = 0) → s.allowHoles = true → m = s.blockSize + 1 →
       (readOneBlock s c env req fuel).count = some ((s.blockSize : Nat) : Int)) ∧
    (∀ dec, 0 < m →
       blockRead s c (data.take m) ((req.offset / s.blockSize) ^^^ s.fileIV) = some dec →
       ¬(s.allowHoles = true ∧ trailingZeroCount dec = m ∧ m = s.blockSize + 1) →
       ¬(1 < m - trailingZeroCount dec ∧
         dec.getD (m - trailingZeroCount dec - 1) 0 = 0x80) →
       (readOneBlock s c env req fuel).count = some (-EBADMSG)) := by
  have hmle : m ≤ data.length := by omega
  have hdeclen : ∀ dec,
      blockRead s c (data.take m) ((req.offset / s.blockSize) ^^^ s.fileIV) = some dec →
      dec.length = m := by
    intro dec hbr
    rw [blockRead_len s c (data.take m) dec _ hrev hclen hbr, List.length_take]
    omega
  have hmain : readOneBlock s c env req fuel =
      .ret (specPaddedDecode s c rs.toNat data ((req.offset / s.blockSize) ^^^ s.fileIV)).1
           (specPaddedDecode s c rs.toNat data ((req.offset / s.blockSize) ^^^ s.fileIV)).2 s
           (if m = 0 then []
            else [Eff.blockCipherOp ((req.offset / s.blockSize) ^^^ s.fileIV) m]) := by
    unfold readOneBlock
    rw [hread]
    dsimp only
    rw [if_neg (by simp [hnh])]
    dsimp only
    rw [if_neg (by decide : ¬((0 : Int) < 0)), if_pos ⟨hpad, hrs⟩,
      if_pos (show (!s.reverse) = true by simp [hrev])]
    unfold specPaddedDecode
    rw [← hm]
    by_cases hm0 : m = 0
    · rw [if_neg (by omega : ¬0 < m), if_pos hm0, if_pos hm0]
    · rw [if_pos (by omega : 0 < m), if_neg hm0, if_neg hm0]
      cases hbr : blockRead s c (data.take m) ((req.offset / s.blockSize) ^^^ s.fileIV) with
      | none => simp
      | some dec =>
        have hl : dec.length = m := hdeclen dec hbr
        have hct : countTrailingZeros dec m = trailingZeroCount dec := by
          rw [← hl]
          exact countTrailingZeros_eq dec
        dsimp only
        rw [hct]
        split_ifs <;> simp [Nat.sub_sub]
  refine ⟨hmain, ?_, ?_⟩
  · intro dec hbr hz hhole hmbs
    have hl : dec.length = m := hdeclen dec hbr
    have ht : trailingZeroCount dec = m := by
      rw [trailingZeroCount_all_zero dec hz, hl]
    rw [hmain]
    unfold specPaddedDecode
    rw [← hm, if_neg (by omega : ¬m = 0), hbr]
    dsimp only
    rw [if_pos ⟨hhole, ht, hmbs⟩]
    unfold RRes.count
    rw [hmbs]
    simp
  · intro dec hm0 hbr hnothole hnomark
    rw [hmain]
    unfold specPaddedDecode
    rw [← hm, if_neg (by omega : ¬m = 0), hbr]
    dsimp only
    rw [if_neg hnothole, if_neg hnomark]
    rfl

/-- Witness for C4: one raw 8-byte block `[1,2,3,0x80,0,0,0,0]` over native
block size 4 and effective block size 7 decodes (identity cipher) to logical
length 3 with the `0x80` marker stripped. -/
theorem readOneBlock_padded_decode_witness :
    readOneBlock s4 cEx env4 req4 1 =
      .ret 3 [1, 2, 3, 128, 0, 0, 0, 0] s4 [Eff.blockCipherOp 0 8] :=
  (readOneBlock_padded_decode s4 cEx env4 req4 1 8 [1, 2, 3, 128, 0, 0, 0, 0] 8
    (by decide) (by decide) (by decide) (by decide) (by decide) (by decide)
    cEx_blockDecodeLen (by decide)).1

/-- On a regular file with a working stat, `generateReverseHeader` derives
the file IV from the SHA1 hash of the inode number and returns the encrypted
header bytes. -/
theorem generateReverseHeader_eq (s : FState) (c : Cipher) (env : Env)
    (hdr : List Nat)
    (hrev : s.reverse = true) (hattr : env.getAttrRes = 0)
    (hino : env.stat.ino ≠ 0)
    (henc : c.streamEncode (bufFix HEADER_SIZE (c.sha1 (leBytes env.stat.ino 8)))
        s.externalIV = some hdr) :
    generateReverseHeader s c env =
      .ok hdr { s with fileIV := reverseFileIV c env } := by
  obtain ⟨k, hk⟩ := adjustSize_reverse_ok s c.cipherBlockSize env.stat.size hrev
  unfold generateReverseHeader getAttr
  by_cases hreg : env.stat.isReg = true
  · rw [if_pos ⟨hattr, hreg⟩, hk]
    dsimp only
    rw [hattr, if_neg (by decide : ¬((0 : Int) ≠ 0)), if_neg hino, henc]
    rfl
  · rw [if_neg (by simp [hreg])]
    dsimp only
    rw [hattr, if_neg (by decide : ¬((0 : Int) ≠ 0)), if_neg hino, henc]
    rfl

/-- C5: a reverse-mode read with headers maps ciphertext offset `X` to
backing offset `X - 8`; when the mapped offset is negative it serves
`min(-mapped, length)` freshly synthesized encrypted header bytes (returning
immediately with that count when it satisfies the whole request), reads any
remainder from backing offset 0, returns header bytes plus backing bytes
read, and propagates a backing-read error verbatim. -/
theorem reverse_header_read (s : FState) (c : Cipher) (env : Env)
    (req : IORequest) (hdr : List Nat)
    (hrev : s.reverse = true) (hh : s.haveHeader = true)
    (hattr : env.getAttrRes = 0) (hino : env.stat.ino ≠ 0)
    (henc : c.streamEncode (bufFix HEADER_SIZE (c.sha1 (leBytes env.stat.ino 8)))
        s.externalIV = some hdr) :
    (req.offset < 8 → req.dataLen ≤ 8 - req.offset →
       read s c env req =
         .ret (req.dataLen : Int) ((hdr.drop (8 - req.dataLen)).take req.dataLen)
           { s with fileIV := reverseFileIV c env } []) ∧
    (req.offset < 8 → 8 - req.offset < req.dataLen →
       ((0 ≤ (env.rangeRead 0 (req.dataLen - (8 - req.offset))).1 →
           read s c env req =
             .ret (((8 - req.offset : Nat) : Int) +
                   (env.rangeRead 0 (req.dataLen - (8 - req.offset))).1)
               ((hdr.drop req.offset).take (8 - req.offset) ++
                (env.rangeRead 0 (req.dataLen - (8 - req.offset))).2)
               { s with fileIV := reverseFileIV c env } []) ∧
        ((env.rangeRead 0 (req.dataLen - (8 - req.offset))).1 < 0 →
           (read s c env req).count =
             some (env.rangeRead 0 (req.dataLen - (8 - req.offset))).1))) ∧
    (8 ≤ req.offset →
       (read s c env req).count =
         some (env.rangeRead (req.offset - 8) req.dataLen).1) := by
  have hg := generateReverseHeader_eq s c env hdr hrev hattr hino henc
  refine ⟨?_, ?_, ?_⟩
  · intro hoff hle
    unfold read
    rw [if_neg (by simp [hrev, hh]), hg]
    dsimp only
    simp only [HEADER_SIZE]
    rw [if_pos (by omega : (req.offset : Int) - (8 : Nat) < 0)]
    have h1 : (-((req.offset : Int) - (8 : Nat))).toNat = 8 - req.offset := by omega
    rw [h1, min_eq_right hle, if_pos rfl]
  · intro hoff hlt
    unfold read
    rw [if_neg (by simp [hrev, hh]), hg]
    dsimp only
    simp only [HEADER_SIZE]
    rw [if_pos (by omega : (req.offset : Int) - (8 : Nat) < 0)]
    have h1 : (-((req.offset : Int) - (8 : Nat))).toNat = 8 - req.offset := by omega
    rw [h1, min_eq_left (by omega : 8 - req.offset ≤ req.dataLen),
      if_neg (by omega : ¬(8 - req.offset = req.dataLen)),
      if_neg (not_not_intro (by omega :
        (req.offset : Int) - (8 : Nat) + ((8 - req.offset : Nat) : Int) = 0)),
      (by omega : 8 - (8 - req.offset) = req.offset)]
    constructor
    · intro hge
      rw [if_neg (not_lt.mpr hge)]
    · intro hlt0
      rw [if_pos hlt0]
      rfl
  · intro h8
    unfold read
    rw [if_neg (by simp [hrev, hh]), hg]
    dsimp only
    simp only [HEADER_SIZE]
    rw [if_neg (by omega : ¬((req.offset : Int) - (8 : Nat) < 0)),
      (by omega : ((req.offset : Int) - (8 : Nat)).toNat = req.offset - 8)]
    rfl

/-- Witness for C5 at a straddling read (offset 4, length 10): 4 header
bytes followed by 6 backing bytes, total 10. -/
theorem reverse_header_read_witness :
    read s5 cEx env5 req5 =
      .ret 10 [5, 6, 7, 8, 9, 9, 9, 9, 9, 9]
        { s5 with fileIV := 72623859790382856 } [] :=
  ((reverse_header_read s5 cEx env5 req5 [1, 2, 3, 4, 5, 6, 7, 8]
      (by decide) (by decide) (by decide) (by decide) (by decide)).2.1
    (by decide) (by decide)).1 (by decide)

end EncFS
